import Mathlib

/-!
Verification of the scnm memory-scanner core: a shallow embedding of the
match/needle/region machinery (match.h, match_match.c, match_search.c,
match_init.c, pid_maps.c, region.h) together with proofs and refutations
of the specification's claims about it.

Machine integers are modelled as `Nat` with explicit `% 2 ^ w` lenses;
two's-complement views are `Int`-valued.  IEEE-754 float comparisons are
modelled arithmetically on the bit patterns (comparisons are exact in
IEEE-754: no rounding is involved), with NaN making every ordered
comparison false and `+0 = -0`.
-/

set_option autoImplicit false

namespace Scnm

/-- Two's-complement reading of `n` (reduced mod `2 ^ w`) as a signed
`w`-bit integer. -/
def toSigned (w : Nat) (n : Nat) : Int :=
  let m := n % 2 ^ w
  if m < 2 ^ (w - 1) then (m : Int) else (m : Int) - 2 ^ w

/-- Little-endian value of a byte list (each byte reduced mod 256). -/
def leVal : List Nat → Nat
  | [] => 0
  | b :: bs => b % 256 + 256 * leVal bs

/-- The `v.u8` lens of the 8-byte payload union in `struct match_object`. -/
def u8 (v : Nat) : Nat := v % 2 ^ 8

/-- The `v.u16` lens of the payload union. -/
def u16 (v : Nat) : Nat := v % 2 ^ 16

/-- The `v.u32` lens of the payload union. -/
def u32 (v : Nat) : Nat := v % 2 ^ 32

/-- The `v.u64` lens of the payload union. -/
def u64 (v : Nat) : Nat := v % 2 ^ 64

/-- The `v.i8` lens of the payload union. -/
def i8v (v : Nat) : Int := toSigned 8 v

/-- The `v.i16` lens of the payload union. -/
def i16v (v : Nat) : Int := toSigned 16 v

/-- The `v.i32` lens of the payload union. -/
def i32v (v : Nat) : Int := toSigned 32 v

/-- The `v.i64` lens of the payload union. -/
def i64v (v : Nat) : Int := toSigned 64 v

/-! IEEE-754 comparison model on bit patterns.  A C comparison
`x OP y` on `double` (resp. `float`) values sharing bits with the
payload is embedded as the corresponding function below applied to the
64-bit (resp. low 32-bit) patterns. -/

/-- NaN test on a binary64 bit pattern. -/
def f64IsNaN (v : Nat) : Bool :=
  let w := v % 2 ^ 64
  decide ((w / 2 ^ 52) % 2 ^ 11 = 2 ^ 11 - 1) && decide (w % 2 ^ 52 ≠ 0)

/-- Order key of a (non-NaN) binary64 bit pattern: sign-magnitude folded
into a totally ordered `Int`; `+0` and `-0` share the key `0`. -/
def f64Key (v : Nat) : Int :=
  let w : Nat := v % 2 ^ 64
  if w < 2 ^ 63 then (w : Int) else -((w : Int) - 2 ^ 63)

/-- `a < b` on binary64 bit patterns (false when either is NaN). -/
def f64Lt (a b : Nat) : Bool :=
  !f64IsNaN a && !f64IsNaN b && decide (f64Key a < f64Key b)

/-- `a <= b` on binary64 bit patterns (false when either is NaN). -/
def f64Le (a b : Nat) : Bool :=
  !f64IsNaN a && !f64IsNaN b && decide (f64Key a ≤ f64Key b)

/-- `a > b` on binary64 bit patterns. -/
def f64Gt (a b : Nat) : Bool := f64Lt b a

/-- `a >= b` on binary64 bit patterns. -/
def f64Ge (a b : Nat) : Bool := f64Le b a

/-- `a == b` on binary64 bit patterns (`+0 == -0`; NaN equals nothing). -/
def f64EqB (a b : Nat) : Bool :=
  !f64IsNaN a && !f64IsNaN b && decide (f64Key a = f64Key b)

/-- NaN test on a binary32 bit pattern (the low 4 payload bytes). -/
def f32IsNaN (v : Nat) : Bool :=
  let w := v % 2 ^ 32
  decide ((w / 2 ^ 23) % 2 ^ 8 = 2 ^ 8 - 1) && decide (w % 2 ^ 23 ≠ 0)

/-- Order key of a (non-NaN) binary32 bit pattern. -/
def f32Key (v : Nat) : Int :=
  let w : Nat := v % 2 ^ 32
  if w < 2 ^ 31 then (w : Int) else -((w : Int) - 2 ^ 31)

/-- `a < b` on binary32 bit patterns (false when either is NaN). -/
def f32Lt (a b : Nat) : Bool :=
  !f32IsNaN a && !f32IsNaN b && decide (f32Key a < f32Key b)

/-- `a <= b` on binary32 bit patterns (false when either is NaN). -/
def f32Le (a b : Nat) : Bool :=
  !f32IsNaN a && !f32IsNaN b && decide (f32Key a ≤ f32Key b)

/-- `a > b` on binary32 bit patterns. -/
def f32Gt (a b : Nat) : Bool := f32Lt b a

/-- `a >= b` on binary32 bit patterns. -/
def f32Ge (a b : Nat) : Bool := f32Le b a

/-- `a == b` on binary32 bit patterns. -/
def f32EqB (a b : Nat) : Bool :=
  !f32IsNaN a && !f32IsNaN b && decide (f32Key a = f32Key b)

/-- `union match_flags` (match.h): per-width validity bits of a value
snapshot plus the two reserved inequality-chain bits. -/
structure MatchFlags where
  i8 : Bool := false
  i16 : Bool := false
  i32 : Bool := false
  i64 : Bool := false
  f32 : Bool := false
  f64 : Bool := false
  ineqForward : Bool := false
  ineqReverse : Bool := false
deriving DecidableEq, Repr, Inhabited

/-- `struct match_object` (match.h): the 8-byte payload (as a `Nat`
below `2 ^ 64`, little-endian view of `v.bytes`), the flag set, and the
source address. -/
structure MatchObject where
  v : Nat := 0
  flags : MatchFlags := {}
  addr : Nat := 0
deriving DecidableEq, Repr, Inhabited

/-- `get_match_object` (match_match.c:88-154 and
match_search_pid_mem.c:48-114, identical bodies).  `readResult` is the
outcome of `read_actor` into the zeroed 8-byte buffer: `none` for a
negative return, `some bs` for a read of `bs` (at most 8 bytes; a
0-byte result is treated as a full 8-byte read, the ptrace case). -/
def getMatchObject (readResult : Option (List Nat)) (addr : Nat) :
    Option MatchObject :=
  match readResult with
  | none => none
  | some bs0 =>
    let bs := bs0.take 8
    let v := leVal bs
    let err := if bs.length = 0 then 8 else bs.length
    let neg := decide (i64v v < 0)
    let fl0 : MatchFlags := {}
    let fl1 :=
      if u64 v ≤ 2 ^ 8 - 1 then
        { fl0 with i8 := if neg then !decide (i64v v < -(2 ^ 7 : Int)) else true }
      else fl0
    if err < 2 then some { v := v, flags := fl1, addr := addr } else
    let fl2 :=
      if u64 v ≤ 2 ^ 16 - 1 then
        { fl1 with i16 := if neg then !decide (i64v v < -(2 ^ 15 : Int)) else true }
      else fl1
    if err < 4 then some { v := v, flags := fl2, addr := addr } else
    let fl3 :=
      if u64 v ≤ 2 ^ 32 - 1 then
        { fl2 with i32 := if neg then !decide (i64v v < -(2 ^ 31 : Int)) else true }
      else fl2
    let fl4 := { fl3 with f32 := true }
    if err < 8 then some { v := v, flags := fl4, addr := addr } else
    some { v := v, flags := { fl4 with i64 := true, f64 := true }, addr := addr }

/-! The narrow-engine predicates of match_match.c.  All have the C
signature `(orig, new, needle_1, needle_2)`; a NULL needle argument in
C (always an unused one) is embedded as `default`. -/

/-- Type of `match_fn` (match_match.c:29-31). -/
def MatchPred : Type :=
  MatchObject → MatchObject → MatchObject → MatchObject → Bool

/-- `__match_eq` (match_match.c:334-355). -/
def matchEqPred : MatchPred := fun _ new n1 _ =>
  if n1.flags.i64 || n1.flags.f64 then decide (u64 n1.v = u64 new.v)
  else if n1.flags.i32 || n1.flags.f32 then decide (u32 n1.v = u32 new.v)
  else if n1.flags.i16 then decide (u16 n1.v = u16 new.v)
  else if n1.flags.i8 then decide (u8 n1.v = u8 new.v)
  else false

/-- `__match_ne` (match_match.c:375-396). -/
def matchNePred : MatchPred := fun _ new n1 _ =>
  if n1.flags.i64 || n1.flags.f64 then decide (u64 n1.v ≠ u64 new.v)
  else if n1.flags.i32 || n1.flags.f32 then decide (u32 n1.v ≠ u32 new.v)
  else if n1.flags.i16 then decide (u16 n1.v ≠ u16 new.v)
  else if n1.flags.i8 then decide (u8 n1.v ≠ u8 new.v)
  else false

/-- `__match_lt` (match_match.c:416-456). -/
def matchLtPred : MatchPred := fun _ new n1 _ =>
  if n1.flags.i64 then
    decide (u64 n1.v < u64 new.v) || decide (i64v n1.v < i64v new.v)
  else if n1.flags.f64 then f64Lt n1.v new.v
  else if n1.flags.i32 then
    decide (u32 n1.v < u32 new.v) || decide (i32v n1.v < i32v new.v)
  else if n1.flags.f32 then f32Lt n1.v new.v
  else if n1.flags.i16 then
    decide (u16 n1.v < u16 new.v) || decide (i16v n1.v < i16v new.v)
  else if n1.flags.i8 then
    decide (u8 n1.v < u8 new.v) || decide (i8v n1.v < i8v new.v)
  else false

/-- `__match_le` (match_match.c:476-516). -/
def matchLePred : MatchPred := fun _ new n1 _ =>
  if n1.flags.i64 then
    decide (u64 n1.v ≤ u64 new.v) || decide (i64v n1.v ≤ i64v new.v)
  else if n1.flags.f64 then f64Le n1.v new.v
  else if n1.flags.i32 then
    decide (u32 n1.v ≤ u32 new.v) || decide (i32v n1.v ≤ i32v new.v)
  else if n1.flags.f32 then f32Le n1.v new.v
  else if n1.flags.i16 then
    decide (u16 n1.v ≤ u16 new.v) || decide (i16v n1.v ≤ i16v new.v)
  else if n1.flags.i8 then
    decide (u8 n1.v ≤ u8 new.v) || decide (i8v n1.v ≤ i8v new.v)
  else false

/-- `__match_gt` (match_match.c:536-576). -/
def matchGtPred : MatchPred := fun _ new n1 _ =>
  if n1.flags.i64 then
    decide (u64 n1.v > u64 new.v) || decide (i64v n1.v > i64v new.v)
  else if n1.flags.f64 then f64Gt n1.v new.v
  else if n1.flags.i32 then
    decide (u32 n1.v > u32 new.v) || decide (i32v n1.v > i32v new.v)
  else if n1.flags.f32 then f32Gt n1.v new.v
  else if n1.flags.i16 then
    decide (u16 n1.v > u16 new.v) || decide (i16v n1.v > i16v new.v)
  else if n1.flags.i8 then
    decide (u8 n1.v > u8 new.v) || decide (i8v n1.v > i8v new.v)
  else false

/-- `__match_ge` (match_match.c:596-636). -/
def matchGePred : MatchPred := fun _ new n1 _ =>
  if n1.flags.i64 then
    decide (u64 n1.v ≥ u64 new.v) || decide (i64v n1.v ≥ i64v new.v)
  else if n1.flags.f64 then f64Ge n1.v new.v
  else if n1.flags.i32 then
    decide (u32 n1.v ≥ u32 new.v) || decide (i32v n1.v ≥ i32v new.v)
  else if n1.flags.f32 then f32Ge n1.v new.v
  else if n1.flags.i16 then
    decide (u16 n1.v ≥ u16 new.v) || decide (i16v n1.v ≥ i16v new.v)
  else if n1.flags.i8 then
    decide (u8 n1.v ≥ u8 new.v) || decide (i8v n1.v ≥ i8v new.v)
  else false

/-- `__match_gt_lt` (match_match.c:656-664): `> lower && < upper`. -/
def matchGtLtPred : MatchPred := fun orig new lower upper =>
  if !matchGtPred orig new lower default then false
  else matchLtPred orig new upper default

/-- `__match_ge_lt` (match_match.c:666-674). -/
def matchGeLtPred : MatchPred := fun orig new lower upper =>
  if !matchGePred orig new lower default then false
  else matchLtPred orig new upper default

/-- `__match_gt_le` (match_match.c:676-684). -/
def matchGtLePred : MatchPred := fun orig new lower upper =>
  if !matchGtPred orig new lower default then false
  else matchLePred orig new upper default

/-- `__match_ge_le` (match_match.c:686-694). -/
def matchGeLePred : MatchPred := fun orig new lower upper =>
  if !matchGePred orig new lower default then false
  else matchLePred orig new upper default

/-- `__match_changed` (match_match.c:748-771): dispatch on the stored
entry's flags, largest width first. -/
def matchChangedPred : MatchPred := fun orig new _ _ =>
  if orig.flags.i64 || orig.flags.f64 then decide (u64 orig.v ≠ u64 new.v)
  else if orig.flags.i32 || orig.flags.f32 then decide (u32 orig.v ≠ u32 new.v)
  else if orig.flags.i16 then decide (u16 orig.v ≠ u16 new.v)
  else if orig.flags.i8 then decide (u8 orig.v ≠ u8 new.v)
  else false

/-- `__match_unchanged` (match_match.c:789-812). -/
def matchUnchangedPred : MatchPred := fun orig new _ _ =>
  if orig.flags.i64 || orig.flags.f64 then decide (u64 orig.v = u64 new.v)
  else if orig.flags.i32 || orig.flags.f32 then decide (u32 orig.v = u32 new.v)
  else if orig.flags.i16 then decide (u16 orig.v = u16 new.v)
  else if orig.flags.i8 then decide (u8 orig.v = u8 new.v)
  else false

/-- `__match_decreased` (match_match.c:830-880): smallest flagged width
first, keep as soon as any flagged view decreased. -/
def matchDecreasedPred : MatchPred := fun orig new _ _ =>
  if orig.flags.i8 &&
      (decide (u8 new.v < u8 orig.v) || decide (i8v new.v < i8v orig.v)) then true
  else if orig.flags.i16 &&
      (decide (u16 new.v < u16 orig.v) || decide (i16v new.v < i16v orig.v)) then true
  else if orig.flags.i32 &&
      (decide (u32 new.v < u32 orig.v) || decide (i32v new.v < i32v orig.v)) then true
  else if orig.flags.f32 && f32Lt new.v orig.v then true
  else if orig.flags.i64 &&
      (decide (u64 new.v < u64 orig.v) || decide (i64v new.v < i64v orig.v)) then true
  else if orig.flags.f64 && f64Lt new.v orig.v then true
  else false

/-- `__match_increased` (match_match.c:901-951). -/
def matchIncreasedPred : MatchPred := fun orig new _ _ =>
  if orig.flags.i8 &&
      (decide (u8 new.v > u8 orig.v) || decide (i8v new.v > i8v orig.v)) then true
  else if orig.flags.i16 &&
      (decide (u16 new.v > u16 orig.v) || decide (i16v new.v > i16v orig.v)) then true
  else if orig.flags.i32 &&
      (decide (u32 new.v > u32 orig.v) || decide (i32v new.v > i32v orig.v)) then true
  else if orig.flags.f32 && f32Gt new.v orig.v then true
  else if orig.flags.i64 &&
      (decide (u64 new.v > u64 orig.v) || decide (i64v new.v > i64v orig.v)) then true
  else if orig.flags.f64 && f64Gt new.v orig.v then true
  else false

/-- `__search_eq` (match_search.c:226-253), the scan-side equality
predicate: narrowest flagged width first, accept on the first width
whose comparison holds. -/
def searchEqPred (value n1 : MatchObject) : Bool :=
  if n1.flags.i8 && decide (u8 n1.v = u8 value.v) then true
  else if n1.flags.i16 && decide (u16 n1.v = u16 value.v) then true
  else if (n1.flags.i32 || n1.flags.f32) && decide (u32 n1.v = u32 value.v) then true
  else if (n1.flags.i64 || n1.flags.f64) && decide (u64 n1.v = u64 value.v) then true
  else false

/-! Model of the libc string-to-integer conversions used by
match_init.c.  `strtoull(value, &endptr, 0)` is embedded over the
character list of the string; the resulting end pointer is represented
by the index it points at inside the string (`stopIdx`).  A non-null
`char **endptr` argument is always written with a pointer into the
string, never with the null pointer. -/

/-- Result of a modelled `strtoull`/`strtod` call: the (cast) value,
the index the stored end pointer refers to, and whether `errno` was set
to `ERANGE`. -/
structure CStrResult where
  val : Nat := 0
  stopIdx : Nat := 0
  rangeErr : Bool := false
deriving DecidableEq, Repr, Inhabited

/-- Digit value of `c` in the given base (2..16), if any. -/
def digitVal (base : Nat) (c : Char) : Option Nat :=
  let d :=
    if '0' ≤ c ∧ c ≤ '9' then some (c.toNat - '0'.toNat)
    else if 'a' ≤ c ∧ c ≤ 'f' then some (c.toNat - 'a'.toNat + 10)
    else if 'A' ≤ c ∧ c ≤ 'F' then some (c.toNat - 'A'.toNat + 10)
    else none
  match d with
  | some dv => if dv < base then some dv else none
  | none => none

/-- `isspace` of the C locale. -/
def isWsChar (c : Char) : Bool :=
  c = ' ' || c = '\t' || c = '\n' || c = '\x0b' || c = '\x0c' || c = '\r'

/-- Longest digit prefix in the given base: accumulated magnitude and
number of characters consumed. -/
def takeDigits (base : Nat) : List Char → Nat → Nat × Nat
  | [], acc => (acc, 0)
  | c :: cs, acc =>
    match digitVal base c with
    | some d =>
      let (v, n) := takeDigits base cs (acc * base + d)
      (v, n + 1)
    | none => (acc, 0)

/-- `strtoull(s, &endptr, 0)`: optional whitespace, optional sign,
base detection (`0x` hex, leading `0` octal, else decimal), longest
digit run.  On overflow the value clamps to `ULLONG_MAX` with
`ERANGE`; a leading minus negates modulo `2 ^ 64`.  With no digits no
conversion is performed and the end pointer is the start of the
string. -/
def strtoull0 (s : String) : CStrResult :=
  let cs := s.toList
  let nWs := (cs.takeWhile isWsChar).length
  let cs1 := cs.drop nWs
  let (negSign, nSign, cs2) :=
    match cs1 with
    | '-' :: r => (true, 1, r)
    | '+' :: r => (false, 1, r)
    | r => (false, 0, r)
  let (mag, nDig, base0x) :=
    match cs2 with
    | '0' :: 'x' :: r =>
      match digitVal 16 (r.headD ' ') with
      | some _ => let (m, n) := takeDigits 16 r 0; (m, n + 2, true)
      | none => let (m, n) := takeDigits 8 cs2 0; (m, n, false)
    | '0' :: 'X' :: r =>
      match digitVal 16 (r.headD ' ') with
      | some _ => let (m, n) := takeDigits 16 r 0; (m, n + 2, true)
      | none => let (m, n) := takeDigits 8 cs2 0; (m, n, false)
    | '0' :: _ => let (m, n) := takeDigits 8 cs2 0; (m, n, false)
    | r => let (m, n) := takeDigits 10 r 0; (m, n, false)
  let _ := base0x
  if nDig = 0 then { val := 0, stopIdx := 0, rangeErr := false }
  else
    let rangeErr := decide (2 ^ 64 ≤ mag)
    let val :=
      if rangeErr then 2 ^ 64 - 1
      else if negSign then (2 ^ 64 - mag % 2 ^ 64) % 2 ^ 64
      else mag
    { val := val, stopIdx := nWs + nSign + nDig, rangeErr := rangeErr }

/-- `match_flags_set_integer` (match_init.c:462-512, identical copy at
part_007:9-59).  Returns `none` for `false` (parse failure); on success
the flags are updated in place.  Note `sval` is read through
`*(int8_t *)&val`: the sign is taken from the LOW BYTE of the parsed
unsigned value. -/
def matchFlagsSetInteger (value : String) (flags : MatchFlags) :
    Option MatchFlags :=
  let r := strtoull0 value
  if r.rangeErr || decide (r.stopIdx < value.length) then none
  else
    let sval : Int := i8v r.val
    let neg := decide (sval < 0)
    let f1 :=
      if r.val ≤ 2 ^ 8 - 1 then
        { flags with i8 := if neg then !decide (sval < -(2 ^ 7 : Int)) else true }
      else flags
    let f2 :=
      if r.val ≤ 2 ^ 16 - 1 then
        { f1 with i16 := if neg then !decide (sval < -(2 ^ 15 : Int)) else true }
      else f1
    let f3 :=
      if r.val ≤ 2 ^ 32 - 1 then
        { f2 with i32 := if neg then !decide (sval < -(2 ^ 31 : Int)) else true }
      else f2
    some { f3 with i64 := true }

/-- `match_flags_set_floating` (match_init.c:514-553).  The `strtof`
and `strtod` calls are abstracted as oracles (`ff`, `fd`).  The source
checks `endptr != '\0'` — the END POINTER itself against the null
pointer, not the character it points at; since `strtof` always stores a
pointer into the string, the test is always true and the function
always fails. -/
def matchFlagsSetFloating (ff fd : String → CStrResult) (value : String)
    (flags : MatchFlags) : Option MatchFlags :=
  let rf := ff value
  let endptrF : Option Nat := some rf.stopIdx
  if endptrF ≠ none then none
  else if !rf.rangeErr then some { flags with f32 := true, f64 := true }
  else
    let rd := fd value
    if rd.rangeErr && decide (rd.stopIdx < value.length) then none
    else some { flags with f64 := true }

/-- `match_needle_init` (match_init.c:566-614).  Returns the C return
value and the needle object (zeroed by `memset` up front).  The source
tests `endptr == '\0'` — the end pointer itself against the null pointer — so
neither success branch is reachable; the `strtod` call is abstracted as
the oracle `fd` (its value is only used in dead code, where the
`(uint64_t)` cast of the double is the oracle's `val`). -/
def matchNeedleInit (fd : String → CStrResult) (value : String) :
    Int × MatchObject :=
  let needle : MatchObject := default
  let r := strtoull0 value
  if r.rangeErr then (-1, needle)
  else
    let endptrI : Option Nat := some r.stopIdx
    if endptrI = none then
      let fl := (matchFlagsSetInteger value {}).getD {}
      (0, { v := u64 r.val, flags := fl, addr := 0 })
    else
      let rd := fd value
      if rd.rangeErr then (-1, needle)
      else
        let endptrD : Option Nat := some rd.stopIdx
        if endptrD = none then
          let fl := (matchFlagsSetFloating fd fd value {}).getD {}
          (0, { v := u64 rd.val, flags := fl, addr := 0 })
        else (-1, needle)

/-! The match store (match.h, match_internal.h) and the narrow engine
`__match` (match_match.c:180-331).  A chunk is its capacity `count` and
the list of its `used` in-use objects; a match list is the ordered
chunk sequence plus the `size` field (incremented and decremented once
per chunk by `match_list_add` / `match_list_delete_entry`). -/

/-- `MATCH_CHUNK_SIZE_HUGE` (match.h). -/
def MATCH_CHUNK_SIZE_HUGE : Nat := 800

/-- `struct match_chunk_header`: capacity and in-use objects. -/
structure Chunk where
  count : Nat
  objs : List MatchObject
deriving DecidableEq, Repr, Inhabited

/-- The `used` counter of a chunk. -/
def Chunk.used (c : Chunk) : Nat := c.objs.length

/-- `struct match_list`. -/
structure MatchList where
  chunks : List Chunk
  size : Nat
deriving DecidableEq, Repr, Inhabited

/-- `delete_chunk_object` (match_match.c:156-171): swap-with-last
deletion of `slot` inside one chunk's object array. -/
def deleteChunkObject (objs : List MatchObject) (slot : Nat) :
    List MatchObject :=
  if objs.length ≤ slot then objs
  else
    let used := objs.length - 1
    if slot = used then objs.take used
    else (objs.take used).set slot (objs.getD used default)

/-- The inner `while (i < header->used)` loop of `__match`
(match_match.c:227-249) on one chunk.  Target memory is the oracle
`mem` from address to read outcome; every read is logged.  A read
failure aborts with `false` (the C `goto out` with `ret = -1`).  The
`fuel` argument only bounds the recursion; `objs.length + 1` always
suffices (each step either advances `i` or shortens `objs`). -/
def narrowLoop (mem : Nat → Option (List Nat)) (pred : MatchPred)
    (n1 n2 : MatchObject) :
    Nat → List MatchObject → Nat → List Nat →
    Bool × List MatchObject × List Nat
  | 0, objs, _, log => (true, objs, log)
  | fuel + 1, objs, i, log =>
    if i < objs.length then
      let obj := objs.getD i default
      let log2 := log ++ [obj.addr]
      match getMatchObject (mem obj.addr) obj.addr with
      | none => (false, objs, log2)
      | some tmp =>
        if pred obj tmp n1 n2 then
          narrowLoop mem pred n1 n2 fuel objs (i + 1) log2
        else
          narrowLoop mem pred n1 n2 fuel (deleteChunkObject objs i) i log2
    else (true, objs, log)

/-- The per-chunk traversal of `__match` (match_match.c:220-254): each
chunk is narrowed by `narrowLoop`; a chunk whose `used` count reaches
zero is unlinked (`match_list_delete_entry`, which decrements the
list's `size` by one).  On a read failure the partially narrowed state
is returned as-is. -/
def narrowChunks (mem : Nat → Option (List Nat)) (pred : MatchPred)
    (n1 n2 : MatchObject) :
    List Chunk → Nat → List Nat → Bool × List Chunk × Nat × List Nat
  | [], size, log => (true, [], size, log)
  | c :: rest, size, log =>
    match narrowLoop mem pred n1 n2 (c.objs.length + 1) c.objs 0 log with
    | (false, objs2, log2) =>
      (false, { c with objs := objs2 } :: rest, size, log2)
    | (true, objs2, log2) =>
      if objs2.length = 0 then
        narrowChunks mem pred n1 n2 rest (size - 1) log2
      else
        let r := narrowChunks mem pred n1 n2 rest size log2
        (r.1, { c with objs := objs2 } :: r.2.1, r.2.2.1, r.2.2.2)

/-- The consolidation phase of `__match` (match_match.c:258-318).
`acc` holds the already-traversed chunks still linked (in list order),
`cur` is the index in `acc` of `current_chunk` (if any), `size` is the
list's `size` field.  `SWAP(header, current_chunk)` swaps the two local
pointers, so "the iterated node" and "the chunk being filled" exchange
roles; deleting a chunk decrements `size`. -/
def compactGo : List Chunk → List Chunk → Option Nat → Nat →
    List Chunk × Nat
  | [], acc, _, size => (acc, size)
  | h :: rest, acc, cur, size =>
    if h.objs.length = h.count then compactGo rest (acc ++ [h]) cur size
    else
      match cur with
      | none => compactGo rest (acc ++ [h]) (some acc.length) size
      | some ci =>
        let c := acc.getD ci default
        let delta := c.count - c.objs.length
        if h.objs.length < delta then
          if c.count < h.count then
            let h2 : Chunk := { h with objs := h.objs ++ c.objs }
            let acc2 := acc.eraseIdx ci
            if h2.objs.length = h2.count then
              compactGo rest (acc2 ++ [h2]) none (size - 1)
            else
              compactGo rest (acc2 ++ [h2]) (some acc2.length) (size - 1)
          else
            let c2 : Chunk := { c with objs := c.objs ++ h.objs }
            let acc2 := acc.set ci c2
            if c2.objs.length = c2.count then
              compactGo rest acc2 none (size - 1)
            else
              compactGo rest acc2 (some ci) (size - 1)
        else
          if h.count - h.objs.length < delta then
            let delta2 := h.count - h.objs.length
            let h2 : Chunk :=
              { h with objs := h.objs ++ c.objs.drop (c.objs.length - delta2) }
            let c2 : Chunk := { c with objs := c.objs.take (c.objs.length - delta2) }
            compactGo rest (acc.set ci c2 ++ [h2]) (some ci) size
          else
            let c2 : Chunk :=
              { c with objs := c.objs ++ h.objs.drop (h.objs.length - delta) }
            let h2 : Chunk := { h with objs := h.objs.take (h.objs.length - delta) }
            let acc2 := acc.set ci c2 ++ [h2]
            compactGo rest acc2 (some (acc2.length - 1)) size

/-- Observable outcome of one `__match` pass: the C return value, the
final list, the sequence of target addresses read, and whether the
`/proc/<pid>/mem` handle was opened. -/
structure MatchRunResult where
  ret : Int
  list : MatchList
  reads : List Nat
  opened : Bool
deriving DecidableEq, Repr

/-- `__match` (match_match.c:180-331).  `canRead` is the outcome of
`can_read_pid_mem`, `openOk` whether `open_pid_mem` would succeed; both
readers are served by the same memory oracle `mem`.  The empty-list
test (`match_list_is_empty`) precedes reader selection. -/
def matchRun (mem : Nat → Option (List Nat)) (canRead openOk : Bool)
    (l : MatchList) (n1 n2 : MatchObject) (pred : MatchPred) :
    MatchRunResult :=
  if l.chunks.isEmpty then { ret := 0, list := l, reads := [], opened := false }
  else
    let opened := canRead && openOk
    match narrowChunks mem pred n1 n2 l.chunks l.size [] with
    | (false, cs, sz, log) =>
      { ret := -1, list := ⟨cs, sz⟩, reads := log, opened := opened }
    | (true, cs, sz, log) =>
      let r := compactGo cs [] none sz
      { ret := 0, list := ⟨r.1, r.2⟩, reads := log, opened := opened }

/-- `match_eq` (match_match.c:367-372); the NULL second needle is
`default`. -/
def matchEqOp (mem : Nat → Option (List Nat)) (canRead openOk : Bool)
    (l : MatchList) (needle : MatchObject) : MatchRunResult :=
  matchRun mem canRead openOk l needle default matchEqPred

/-- `match_ne` (match_match.c:408-413). -/
def matchNeOp (mem : Nat → Option (List Nat)) (canRead openOk : Bool)
    (l : MatchList) (needle : MatchObject) : MatchRunResult :=
  matchRun mem canRead openOk l needle default matchNePred

/-- `match_lt` (match_match.c:468-473). -/
def matchLtOp (mem : Nat → Option (List Nat)) (canRead openOk : Bool)
    (l : MatchList) (needle : MatchObject) : MatchRunResult :=
  matchRun mem canRead openOk l needle default matchLtPred

/-- `match_le` (match_match.c:528-533). -/
def matchLeOp (mem : Nat → Option (List Nat)) (canRead openOk : Bool)
    (l : MatchList) (needle : MatchObject) : MatchRunResult :=
  matchRun mem canRead openOk l needle default matchLePred

/-- `match_gt` (match_match.c:588-593). -/
def matchGtOp (mem : Nat → Option (List Nat)) (canRead openOk : Bool)
    (l : MatchList) (needle : MatchObject) : MatchRunResult :=
  matchRun mem canRead openOk l needle default matchGtPred

/-- `match_ge` (match_match.c:648-653). -/
def matchGeOp (mem : Nat → Option (List Nat)) (canRead openOk : Bool)
    (l : MatchList) (needle : MatchObject) : MatchRunResult :=
  matchRun mem canRead openOk l needle default matchGePred

/-- `match_changed` (match_match.c:782-786); both NULL needles are
`default`. -/
def matchChangedOp (mem : Nat → Option (List Nat)) (canRead openOk : Bool)
    (l : MatchList) : MatchRunResult :=
  matchRun mem canRead openOk l default default matchChangedPred

/-- `match_unchanged` (match_match.c:823-827). -/
def matchUnchangedOp (mem : Nat → Option (List Nat)) (canRead openOk : Bool)
    (l : MatchList) : MatchRunResult :=
  matchRun mem canRead openOk l default default matchUnchangedPred

/-- `match_decreased` (match_match.c:891-895). -/
def matchDecreasedOp (mem : Nat → Option (List Nat)) (canRead openOk : Bool)
    (l : MatchList) : MatchRunResult :=
  matchRun mem canRead openOk l default default matchDecreasedPred

/-- `match_increased` (match_match.c:962-966). -/
def matchIncreasedOp (mem : Nat → Option (List Nat)) (canRead openOk : Bool)
    (l : MatchList) : MatchRunResult :=
  matchRun mem canRead openOk l default default matchIncreasedPred

/-- `enum match_range_bound_flags` (match.h), the four valid values. -/
inductive MatchRangeBoundFlags where
  | GT_LT
  | GE_LT
  | GT_LE
  | GE_LE
deriving DecidableEq, Repr

/-- `match_range` (match_match.c:714-745) for a valid flag value. -/
def matchRangeOp (mem : Nat → Option (List Nat)) (canRead openOk : Bool)
    (l : MatchList) (lower upper : MatchObject)
    (flags : MatchRangeBoundFlags) : MatchRunResult :=
  let actor : MatchPred :=
    match flags with
    | .GT_LT => matchGtLtPred
    | .GE_LT => matchGeLtPred
    | .GT_LE => matchGtLePred
    | .GE_LE => matchGeLePred
  matchRun mem canRead openOk l lower upper actor

/-! The scan-side store operations (match_search.c) and an operation
language for claim C4. -/

/-- One push of a matching window into the store, as done by
`process_region` (match_search.c:75-144) with `current_chunk` being
the most recently added (hence last) chunk: when there is no chunk or
the last chunk is full, a fresh `MATCH_CHUNK_SIZE_HUGE` chunk is
appended by `match_list_add` (match_internal.h:16-21, `size++`); the
object then fills the next free slot (`used++`, no `size` change). -/
def scanPush (l : MatchList) (o : MatchObject) : MatchList :=
  match l.chunks.getLast? with
  | some c =>
    if c.objs.length < c.count then
      { chunks := l.chunks.dropLast ++ [{ c with objs := c.objs ++ [o] }],
        size := l.size }
    else
      { chunks := l.chunks ++ [⟨MATCH_CHUNK_SIZE_HUGE, [o]⟩], size := l.size + 1 }
  | none =>
    { chunks := l.chunks ++ [⟨MATCH_CHUNK_SIZE_HUGE, [o]⟩], size := l.size + 1 }

/-- `delete_chunk_object` lifted to chunk `ci` of the list (no `size`
change, as in the source). -/
def listDeleteAt (l : MatchList) (ci slot : Nat) : MatchList :=
  let c := l.chunks.getD ci default
  let c2 : Chunk := { c with objs := deleteChunkObject c.objs slot }
  { l with chunks := l.chunks.set ci c2 }

/-- Unlinking of emptied chunks as done after each chunk's narrow loop
(match_match.c:251-253): every chunk with `used = 0` is removed and
`size` drops by one for each. -/
def listDropEmpty (l : MatchList) : MatchList :=
  { chunks := l.chunks.filter (fun c => c.objs.length ≠ 0),
    size := l.size - (l.chunks.filter (fun c => c.objs.length = 0)).length }

/-- The compaction phase as an operation on the whole list. -/
def listCompact (l : MatchList) : MatchList :=
  let r := compactGo l.chunks [] none l.size
  { chunks := r.1, size := r.2 }

/-- Match-store operations named by claim C4: pushes during scan,
swap-with-last deletion and emptied-chunk unlinking during narrow, and
compaction. -/
inductive StoreOp where
  | push (o : MatchObject)
  | deleteAt (ci slot : Nat)
  | dropEmpty
  | compact
deriving Repr

/-- Apply one store operation. -/
def applyOp (l : MatchList) : StoreOp → MatchList
  | .push o => scanPush l o
  | .deleteAt ci slot => listDeleteAt l ci slot
  | .dropEmpty => listDropEmpty l
  | .compact => listCompact l

/-- Apply a sequence of store operations. -/
def applyOps (l : MatchList) (ops : List StoreOp) : MatchList :=
  ops.foldl applyOp l

/-! The region model (region.h, region.c) and the maps parser
(pid_maps.c).  The memory-map pseudo-file is a list of lines (each a
character list, newline included as `getline` keeps it); `sscanf` with
the fixed format `"%lx-%lx %c%c%c%c %lx %x:%x %lu %s"` is modelled
conversion by conversion. -/

/-- `struct mapping` (pid_maps.c:58-81).  Unassigned conversions leave
the previous (residual) contents of the reused buffer in place, which
the embedding models by threading the mapping state. -/
structure Mapping where
  start : Nat := 0
  endAddr : Nat := 0
  permRead : Char := '\x00'
  permWrite : Char := '\x00'
  permExec : Char := '\x00'
  permCow : Char := '\x00'
  offset : Nat := 0
  devMajor : Nat := 0
  devMinor : Nat := 0
  inode : Nat := 0
  pathname : String := ""
deriving DecidableEq, Repr, Inhabited

/-- One `scanf` unsigned conversion (`%lx`, `%x`, `%lu`): skip
whitespace, optional sign, for base 16 an optional `0x` prefix, then a
non-empty digit run; `none` on matching or input failure. -/
def scanfUInt (base : Nat) (cs : List Char) : Option (Nat × List Char) :=
  let cs1 := cs.dropWhile isWsChar
  let sr : Bool × List Char :=
    match cs1 with
    | '-' :: r => (true, r)
    | '+' :: r => (false, r)
    | r => (false, r)
  let negSign := sr.1
  let cs2 := sr.2
  let cs3 :=
    if base = 16 then
      match cs2 with
      | '0' :: 'x' :: r => if (digitVal 16 (r.headD ' ')).isSome then r else cs2
      | '0' :: 'X' :: r => if (digitVal 16 (r.headD ' ')).isSome then r else cs2
      | _ => cs2
    else cs2
  let dr := takeDigits base cs3 0
  if dr.2 = 0 then none
  else
    let v := if negSign then (2 ^ 64 - dr.1 % 2 ^ 64) % 2 ^ 64 else dr.1 % 2 ^ 64
    some (v, cs3.drop dr.2)

/-- One `scanf` `%c` conversion: exactly one character, no whitespace
skip; `none` on input failure. -/
def scanfChar (cs : List Char) : Option (Char × List Char) :=
  match cs with
  | [] => none
  | c :: r => some (c, r)

/-- An ordinary (literal) format character: must match the next input
character exactly. -/
def scanfLit (c : Char) (cs : List Char) : Option (List Char) :=
  match cs with
  | [] => none
  | x :: r => if x = c then some r else none

/-- `sscanf(line, "%lx-%lx %c%c%c%c %lx %x:%x %lu %s", ...)`
(pid_maps.c:121-129): returns the number of successful conversions, or
`-1` (`EOF`) when input is exhausted before the first conversion, and
the updated mapping (conversions that never ran leave their fields
untouched). -/
def scanMapsLine (cs0 : List Char) (m0 : Mapping) : Int × Mapping :=
  if cs0.dropWhile isWsChar = [] then (-1, m0) else
  match scanfUInt 16 cs0 with
  | none => (0, m0)
  | some (v1, csA) =>
  let m1 := { m0 with start := v1 }
  match scanfLit '-' csA with
  | none => (1, m1)
  | some csB =>
  match scanfUInt 16 csB with
  | none => (1, m1)
  | some (v2, csC) =>
  let m2 := { m1 with endAddr := v2 }
  match scanfChar (csC.dropWhile isWsChar) with
  | none => (2, m2)
  | some (c1, csE) =>
  let m3 := { m2 with permRead := c1 }
  match scanfChar csE with
  | none => (3, m3)
  | some (c2, csF) =>
  let m4 := { m3 with permWrite := c2 }
  match scanfChar csF with
  | none => (4, m4)
  | some (c3, csG) =>
  let m5 := { m4 with permExec := c3 }
  match scanfChar csG with
  | none => (5, m5)
  | some (c4, csH) =>
  let m6 := { m5 with permCow := c4 }
  match scanfUInt 16 csH with
  | none => (6, m6)
  | some (v7, csI) =>
  let m7 := { m6 with offset := v7 }
  match scanfUInt 16 csI with
  | none => (7, m7)
  | some (v8, csJ) =>
  let m8 := { m7 with devMajor := v8 }
  match scanfLit ':' csJ with
  | none => (8, m8)
  | some csK =>
  match scanfUInt 16 csK with
  | none => (8, m8)
  | some (v9, csL) =>
  let m9 := { m8 with devMinor := v9 }
  match scanfUInt 10 csL with
  | none => (9, m9)
  | some (v10, csM) =>
  let m10 := { m9 with inode := v10 }
  let csN := csM.dropWhile isWsChar
  match csN with
  | [] => (10, m10)
  | _ =>
    let word := csN.takeWhile (fun c => !isWsChar c)
    (11, { m10 with pathname := String.mk word })

/-- `parse_line` (pid_maps.c:116-141): `0` when at least ten fields
were recovered, `-1` with `EPIPE` for zero fields, otherwise the raw
(positive, or `EOF`) `sscanf` return value. -/
def parseLine (cs : List Char) (m : Mapping) : Int × Mapping :=
  let r := scanMapsLine cs m
  if 10 ≤ r.1 then (0, r.2)
  else if r.1 = 0 then (-1, r.2)
  else r

/-- `struct region` (region.h:8-25). -/
structure Region where
  id : Nat := 0
  start : Nat := 0
  endAddr : Nat := 0
  permRead : Bool := false
  permWrite : Bool := false
  permExec : Bool := false
  permPrivate : Bool := false
  permShared : Bool := false
  pathname : String := ""
deriving DecidableEq, Repr, Inhabited

/-- `struct region_list` (region.h:27-31); the default value is the
`region_list_init` state. -/
structure RegionList where
  regions : List Region := []
  nextId : Nat := 1
  size : Nat := 0
deriving DecidableEq, Repr, Inhabited

/-- `new_region_from_mapping` (pid_maps.c:83-113): permission chars
decoded, addresses and pathname copied verbatim, id assigned later. -/
def regionFromMapping (m : Mapping) : Region :=
  { id := 0, start := m.start, endAddr := m.endAddr,
    permRead := m.permRead = 'r', permWrite := m.permWrite = 'w',
    permExec := m.permExec = 'x',
    permPrivate := m.permCow = 'p', permShared := m.permCow = 's',
    pathname := m.pathname }

/-- `region_list_add` (region.h:62-68): assign `next_id`, append,
bump `next_id` and `size`. -/
def regionListAdd (rl : RegionList) (r : Region) : RegionList :=
  { regions := rl.regions ++ [{ r with id := rl.nextId }],
    nextId := rl.nextId + 1, size := rl.size + 1 }

/-- The `getline` loop of `process_pid_maps` (pid_maps.c:230-269): per
line the pathname buffer is cleared, the line parsed, non-`rw` lines
skipped, and surviving mappings appended as regions.  A negative
`parse_line` result aborts with `-1` and the cleared list
(`region_list_clear` re-initializes, pid_maps.c:273-294). -/
def processPidMapsGo : List (List Char) → Mapping → RegionList →
    Int × RegionList
  | [], _, rl => (0, rl)
  | line :: rest, m, rl =>
    let m1 := { m with pathname := "" }
    let r := parseLine line m1
    if r.1 < 0 then (-1, {})
    else if r.2.permWrite ≠ 'w' ∨ r.2.permRead ≠ 'r' then
      processPidMapsGo rest r.2 rl
    else
      processPidMapsGo rest r.2 (regionListAdd rl (regionFromMapping r.2))

/-- `process_pid_maps` (pid_maps.c:200-295) on an already-opened maps
file given as its lines; `garbage` is the indeterminate initial
content of the freshly `malloc`ed mapping buffer. -/
def processPidMaps (lines : List (List Char)) (garbage : Mapping) :
    Int × RegionList :=
  processPidMapsGo lines garbage {}

/-! Specification-side definitions (written from the claims' words, for
comparison with the embedded code) and concrete inputs used by the
evaluations below. -/

/-- Sign bit of the `w`-bit view of `v`. -/
def signBit (w : Nat) (v : Nat) : Bool := decide (2 ^ (w - 1) ≤ v % 2 ^ w)

/-- Modelled from claim C5's words: the window equals the needle when
compared at the SINGLE LARGEST width the needle's flags advertise
(`u64` for `i64`/`f64`, else `u32` for `i32`/`f32`, else `u16`, else
`u8`). -/
def searchEqLargestWidthSpec (needle value : MatchObject) : Bool :=
  if needle.flags.i64 || needle.flags.f64 then decide (u64 needle.v = u64 value.v)
  else if needle.flags.i32 || needle.flags.f32 then decide (u32 needle.v = u32 value.v)
  else if needle.flags.i16 then decide (u16 needle.v = u16 value.v)
  else if needle.flags.i8 then decide (u8 needle.v = u8 value.v)
  else false

/-- Amended form of claim C5: the scan-side `eq` accepts a window when
it equals the needle at SOME width the needle's flags advertise,
checked narrowest first. -/
def searchEqAnyWidthSpec (needle value : MatchObject) : Bool :=
  (needle.flags.i8 && decide (u8 needle.v = u8 value.v)) ||
  (needle.flags.i16 && decide (u16 needle.v = u16 value.v)) ||
  ((needle.flags.i32 || needle.flags.f32) && decide (u32 needle.v = u32 value.v)) ||
  ((needle.flags.i64 || needle.flags.f64) && decide (u64 needle.v = u64 value.v))

/-- Claim C9's characterization of `__match_decreased`: some width
flagged on the STORED entry shows a decrease between the stored value
and the fresh value, under the unsigned or the signed view (float
comparison for the float flags). -/
def decreasedAnyWidthSpec (orig new : MatchObject) : Bool :=
  (orig.flags.i8 && (decide (u8 new.v < u8 orig.v) || decide (i8v new.v < i8v orig.v))) ||
  (orig.flags.i16 && (decide (u16 new.v < u16 orig.v) || decide (i16v new.v < i16v orig.v))) ||
  (orig.flags.i32 && (decide (u32 new.v < u32 orig.v) || decide (i32v new.v < i32v orig.v))) ||
  (orig.flags.f32 && f32Lt new.v orig.v) ||
  (orig.flags.i64 && (decide (u64 new.v < u64 orig.v) || decide (i64v new.v < i64v orig.v))) ||
  (orig.flags.f64 && f64Lt new.v orig.v)

/-- Claim C9's characterization of `__match_increased`. -/
def increasedAnyWidthSpec (orig new : MatchObject) : Bool :=
  (orig.flags.i8 && (decide (u8 new.v > u8 orig.v) || decide (i8v new.v > i8v orig.v))) ||
  (orig.flags.i16 && (decide (u16 new.v > u16 orig.v) || decide (i16v new.v > i16v orig.v))) ||
  (orig.flags.i32 && (decide (u32 new.v > u32 orig.v) || decide (i32v new.v > i32v orig.v))) ||
  (orig.flags.f32 && f32Gt new.v orig.v) ||
  (orig.flags.i64 && (decide (u64 new.v > u64 orig.v) || decide (i64v new.v > i64v orig.v))) ||
  (orig.flags.f64 && f64Gt new.v orig.v)

/-- Amended form of the `GT_LT` half of claim C6: with equal bounds a
candidate is retained exactly when the needle dispatches at an integer
width and the re-read value's sign bit at that width differs from the
needle's; a float-dispatching needle retains nothing. -/
def gtltEqualBoundsSpec (v new : MatchObject) : Bool :=
  if v.flags.i64 then signBit 64 v.v != signBit 64 new.v
  else if v.flags.f64 then false
  else if v.flags.i32 then signBit 32 v.v != signBit 32 new.v
  else if v.flags.f32 then false
  else if v.flags.i16 then signBit 16 v.v != signBit 16 new.v
  else if v.flags.i8 then signBit 8 v.v != signBit 8 new.v
  else false

/-- Amended form of the `GE_LE` half of claim C6: with equal bounds a
candidate is retained exactly when it equals the needle at the
dispatch width (unsigned equality for integer widths, IEEE equality
for float widths) or, at an integer width, differs from the needle in
sign bit. -/
def geleEqualBoundsSpec (v new : MatchObject) : Bool :=
  if v.flags.i64 then decide (u64 v.v = u64 new.v) || (signBit 64 v.v != signBit 64 new.v)
  else if v.flags.f64 then f64EqB v.v new.v
  else if v.flags.i32 then decide (u32 v.v = u32 new.v) || (signBit 32 v.v != signBit 32 new.v)
  else if v.flags.f32 then f32EqB v.v new.v
  else if v.flags.i16 then decide (u16 v.v = u16 new.v) || (signBit 16 v.v != signBit 16 new.v)
  else if v.flags.i8 then decide (u8 v.v = u8 new.v) || (signBit 8 v.v != signBit 8 new.v)
  else false

/-- Prop form of the amended claim C4 invariant: the `size` field
counts the CHUNKS of the list, and every chunk's `used` is at most its
capacity. -/
def SizeInv (l : MatchList) : Prop :=
  l.size = l.chunks.length ∧ ∀ c ∈ l.chunks, c.objs.length ≤ c.count

/-- Boolean form of the amended claim C4 invariant. -/
def sizeInvB (l : MatchList) : Bool :=
  (l.size == l.chunks.length) && l.chunks.all fun c => decide (c.objs.length ≤ c.count)

/-- Claim C8's id property: region ids are `k, k+1, ...` in order. -/
def idsFrom : Nat → List Region → Bool
  | _, [] => true
  | k, r :: rs => (r.id == k) && idsFrom (k + 1) rs

/-- The target's page size assumed by claim C8 (x86-64 Linux). -/
def pageSize : Nat := 4096

/-- A well-formed maps line (eleven recovered fields, `rw`). -/
def mapsLine1 : List Char := "0-1000 rw-p 00000000 00:00 0 [heap]\n".toList

/-- A malformed maps line: only five fields are recovered (start, end
and three permission characters). -/
def mapsLine2 : List Char := "1000-2000 xx\n".toList

/-- A maps line that parses fully but has `start > end` and addresses
that are not page-aligned. -/
def mapsLineBad : List Char := "2-1 rw-p 0 0:0 0 x\n".toList

/-- Claim C5 counterexample needle: value 256 with flags as the needle
parser would set for the literal `"256"` (`i16, i32, i64`). -/
def c5needle : MatchObject := { v := 256, flags := { i16 := true, i32 := true, i64 := true } }

/-- Claim C5 counterexample window: `0x10100`, whose low 16 bits equal
256 but which differs from 256 at 64 bits. -/
def c5value : MatchObject := { v := 65792 }

/-- Claim C6 counterexample memory: address 4096 holds the eight
little-endian bytes of `u64 1`. -/
def c6mem : Nat → Option (List Nat) := fun a =>
  if a = 4096 then some [1, 0, 0, 0, 0, 0, 0, 0] else none

/-- Claim C6 counterexample needle: `u64 = 2 ^ 63` (negative as
`i64`), integer-flagged at 64 bits. -/
def c6needle : MatchObject := { v := 2 ^ 63, flags := { i64 := true } }

/-- Claim C6 counterexample stored entry at address 4096. -/
def c6entry : MatchObject := { v := 42, flags := { i64 := true }, addr := 4096 }

/-- Claim C6 counterexample match list: one chunk, one entry. -/
def c6list : MatchList := { chunks := [⟨800, [c6entry]⟩], size := 1 }

/-! Helper lemmas. -/

/-- Bool identity for the early-return pattern of the search
predicates. -/
theorem iteTrueOr (c x : Bool) : (if c = true then true else x) = (c || x) := by
  cases c <;> simp

/-- Bool identity for the guard pattern of the range predicates. -/
theorem iteNotAnd (g l : Bool) : (if (!g) = true then false else l) = (g && l) := by
  cases g <;> simp

/-- Dual strict comparison at 64 bits holds both ways exactly when the
sign bits differ. -/
theorem gtltW64 (x y : Nat) :
    ((decide (u64 x > u64 y) || decide (i64v x > i64v y)) &&
     (decide (u64 x < u64 y) || decide (i64v x < i64v y))) =
    (signBit 64 x != signBit 64 y) := by
  rw [Bool.eq_iff_iff]
  simp only [u64, i64v, toSigned, signBit, Bool.and_eq_true, Bool.or_eq_true,
    decide_eq_true_eq, bne_iff_ne, ne_eq, decide_eq_decide]
  by_cases hx : x % 2 ^ 64 < 2 ^ (64 - 1) <;> by_cases hy : y % 2 ^ 64 < 2 ^ (64 - 1) <;>
    simp [hx, hy] <;> omega

/-- Dual strict comparison at 32 bits. -/
theorem gtltW32 (x y : Nat) :
    ((decide (u32 x > u32 y) || decide (i32v x > i32v y)) &&
     (decide (u32 x < u32 y) || decide (i32v x < i32v y))) =
    (signBit 32 x != signBit 32 y) := by
  rw [Bool.eq_iff_iff]
  simp only [u32, i32v, toSigned, signBit, Bool.and_eq_true, Bool.or_eq_true,
    decide_eq_true_eq, bne_iff_ne, ne_eq, decide_eq_decide]
  by_cases hx : x % 2 ^ 32 < 2 ^ (32 - 1) <;> by_cases hy : y % 2 ^ 32 < 2 ^ (32 - 1) <;>
    simp [hx, hy] <;> omega

/-- Dual strict comparison at 16 bits. -/
theorem gtltW16 (x y : Nat) :
    ((decide (u16 x > u16 y) || decide (i16v x > i16v y)) &&
     (decide (u16 x < u16 y) || decide (i16v x < i16v y))) =
    (signBit 16 x != signBit 16 y) := by
  rw [Bool.eq_iff_iff]
  simp only [u16, i16v, toSigned, signBit, Bool.and_eq_true, Bool.or_eq_true,
    decide_eq_true_eq, bne_iff_ne, ne_eq, decide_eq_decide]
  by_cases hx : x % 2 ^ 16 < 2 ^ (16 - 1) <;> by_cases hy : y % 2 ^ 16 < 2 ^ (16 - 1) <;>
    simp [hx, hy] <;> omega

/-- Dual strict comparison at 8 bits. -/
theorem gtltW8 (x y : Nat) :
    ((decide (u8 x > u8 y) || decide (i8v x > i8v y)) &&
     (decide (u8 x < u8 y) || decide (i8v x < i8v y))) =
    (signBit 8 x != signBit 8 y) := by
  rw [Bool.eq_iff_iff]
  simp only [u8, i8v, toSigned, signBit, Bool.and_eq_true, Bool.or_eq_true,
    decide_eq_true_eq, bne_iff_ne, ne_eq, decide_eq_decide]
  by_cases hx : x % 2 ^ 8 < 2 ^ (8 - 1) <;> by_cases hy : y % 2 ^ 8 < 2 ^ (8 - 1) <;>
    simp [hx, hy] <;> omega

/-- Dual non-strict comparison at 64 bits holds both ways exactly on
unsigned equality or differing sign bits. -/
theorem geleW64 (x y : Nat) :
    ((decide (u64 x ≥ u64 y) || decide (i64v x ≥ i64v y)) &&
     (decide (u64 x ≤ u64 y) || decide (i64v x ≤ i64v y))) =
    (decide (u64 x = u64 y) || (signBit 64 x != signBit 64 y)) := by
  rw [Bool.eq_iff_iff]
  simp only [u64, i64v, toSigned, signBit, Bool.and_eq_true, Bool.or_eq_true,
    decide_eq_true_eq, bne_iff_ne, ne_eq, decide_eq_decide]
  by_cases hx : x % 2 ^ 64 < 2 ^ (64 - 1) <;> by_cases hy : y % 2 ^ 64 < 2 ^ (64 - 1) <;>
    simp [hx, hy] <;> omega

/-- Dual non-strict comparison at 32 bits. -/
theorem geleW32 (x y : Nat) :
    ((decide (u32 x ≥ u32 y) || decide (i32v x ≥ i32v y)) &&
     (decide (u32 x ≤ u32 y) || decide (i32v x ≤ i32v y))) =
    (decide (u32 x = u32 y) || (signBit 32 x != signBit 32 y)) := by
  rw [Bool.eq_iff_iff]
  simp only [u32, i32v, toSigned, signBit, Bool.and_eq_true, Bool.or_eq_true,
    decide_eq_true_eq, bne_iff_ne, ne_eq, decide_eq_decide]
  by_cases hx : x % 2 ^ 32 < 2 ^ (32 - 1) <;> by_cases hy : y % 2 ^ 32 < 2 ^ (32 - 1) <;>
    simp [hx, hy] <;> omega

/-- Dual non-strict comparison at 16 bits. -/
theorem geleW16 (x y : Nat) :
    ((decide (u16 x ≥ u16 y) || decide (i16v x ≥ i16v y)) &&
     (decide (u16 x ≤ u16 y) || decide (i16v x ≤ i16v y))) =
    (decide (u16 x = u16 y) || (signBit 16 x != signBit 16 y)) := by
  rw [Bool.eq_iff_iff]
  simp only [u16, i16v, toSigned, signBit, Bool.and_eq_true, Bool.or_eq_true,
    decide_eq_true_eq, bne_iff_ne, ne_eq, decide_eq_decide]
  by_cases hx : x % 2 ^ 16 < 2 ^ (16 - 1) <;> by_cases hy : y % 2 ^ 16 < 2 ^ (16 - 1) <;>
    simp [hx, hy] <;> omega

/-- Dual non-strict comparison at 8 bits. -/
theorem geleW8 (x y : Nat) :
    ((decide (u8 x ≥ u8 y) || decide (i8v x ≥ i8v y)) &&
     (decide (u8 x ≤ u8 y) || decide (i8v x ≤ i8v y))) =
    (decide (u8 x = u8 y) || (signBit 8 x != signBit 8 y)) := by
  rw [Bool.eq_iff_iff]
  simp only [u8, i8v, toSigned, signBit, Bool.and_eq_true, Bool.or_eq_true,
    decide_eq_true_eq, bne_iff_ne, ne_eq, decide_eq_decide]
  by_cases hx : x % 2 ^ 8 < 2 ^ (8 - 1) <;> by_cases hy : y % 2 ^ 8 < 2 ^ (8 - 1) <;>
    simp [hx, hy] <;> omega

/-- A binary64 value is never both strictly above and strictly below
another. -/
theorem f64GtLtFalse (a b : Nat) : (f64Gt a b && f64Lt a b) = false := by
  simp only [f64Gt, f64Lt]
  cases hA : f64IsNaN a <;> cases hB : f64IsNaN b <;> simp <;> omega

/-- A binary32 value is never both strictly above and strictly below
another. -/
theorem f32GtLtFalse (a b : Nat) : (f32Gt a b && f32Lt a b) = false := by
  simp only [f32Gt, f32Lt]
  cases hA : f32IsNaN a <;> cases hB : f32IsNaN b <;> simp <;> omega

/-- Here `>=` and `<=` holding together is IEEE equality (binary64). -/
theorem f64GeLeEq (a b : Nat) : (f64Ge a b && f64Le a b) = f64EqB a b := by
  simp only [f64Ge, f64Le, f64EqB]
  cases hA : f64IsNaN a <;> cases hB : f64IsNaN b <;>
    simp <;> rw [Bool.eq_iff_iff] <;> simp <;> omega

/-- Here `>=` and `<=` holding together is IEEE equality (binary32). -/
theorem f32GeLeEq (a b : Nat) : (f32Ge a b && f32Le a b) = f32EqB a b := by
  simp only [f32Ge, f32Le, f32EqB]
  cases hA : f32IsNaN a <;> cases hB : f32IsNaN b <;>
    simp <;> rw [Bool.eq_iff_iff] <;> simp <;> omega

/-- Membership of an in-bounds `getD` access. -/
theorem getD_mem_of_lt (l : List Chunk) (i : Nat) (h : i < l.length) :
    l.getD i default ∈ l := by
  rw [List.getD_eq_getElem l default h]; exact List.getElem_mem h

/-- The consolidation phase of `__match` keeps `size` equal to the
chunk count and never overfills a chunk. -/
theorem compactGo_ok (pending : List Chunk) :
    ∀ (acc : List Chunk) (cur : Option Nat) (size : Nat),
    size = pending.length + acc.length →
    (∀ c ∈ pending, c.objs.length ≤ c.count) →
    (∀ c ∈ acc, c.objs.length ≤ c.count) →
    (∀ ci, cur = some ci → ci < acc.length) →
    (compactGo pending acc cur size).2 = (compactGo pending acc cur size).1.length ∧
    ∀ c ∈ (compactGo pending acc cur size).1, c.objs.length ≤ c.count := by
  induction pending with
  | nil =>
    intro acc cur size hs hp ha hc
    unfold compactGo
    exact ⟨by simpa using hs, ha⟩
  | cons h t ih =>
    intro acc cur size hs hp ha hc
    have hh : h.objs.length ≤ h.count := hp h (List.mem_cons_self h t)
    have hp2 : ∀ c ∈ t, c.objs.length ≤ c.count :=
      fun c hct => hp c (List.mem_cons_of_mem h hct)
    have hs2 : size = t.length + acc.length + 1 := by
      simp only [List.length_cons] at hs; omega
    unfold compactGo
    by_cases hfull : h.objs.length = h.count
    · rw [if_pos hfull]
      apply ih
      · simp only [List.length_append, List.length_singleton]; omega
      · exact hp2
      · intro c hca
        rcases List.mem_append.mp hca with hca | hca
        · exact ha c hca
        · rw [List.mem_singleton] at hca; subst hca; omega
      · intro ci hci
        simp only [List.length_append, List.length_singleton]
        exact Nat.lt_succ_of_lt (hc ci hci)
    · rw [if_neg hfull]
      cases hcur : cur with
      | none =>
        apply ih
        · simp only [List.length_append, List.length_singleton]; omega
        · exact hp2
        · intro c hca
          rcases List.mem_append.mp hca with hca | hca
          · exact ha c hca
          · rw [List.mem_singleton] at hca; subst hca; omega
        · intro ci hci
          injection hci with hci
          simp only [← hci, List.length_append, List.length_singleton]
          omega
      | some ci =>
        have hci : ci < acc.length := hc ci hcur
        dsimp only
        have hgen0 : acc.getD ci default ∈ acc := getD_mem_of_lt acc ci hci
        generalize hgen : acc.getD ci default = c0
        rw [hgen] at hgen0
        have hcmem : c0 ∈ acc := hgen0
        have hcok : c0.objs.length ≤ c0.count := ha _ hcmem
        by_cases hlt : h.objs.length < c0.count - c0.objs.length
        · rw [if_pos hlt]
          by_cases hcnt : c0.count < h.count
          · rw [if_pos hcnt]
            have herase : (acc.eraseIdx ci).length = acc.length - 1 :=
              List.length_eraseIdx_of_lt hci
            have hmem2 : ∀ c ∈ acc.eraseIdx ci ++
                [{ h with objs := h.objs ++ c0.objs }],
                c.objs.length ≤ c.count := by
              intro c hca
              rcases List.mem_append.mp hca with hca | hca
              · exact ha c (List.mem_of_mem_eraseIdx hca)
              · rw [List.mem_singleton] at hca; subst hca
                simp only [List.length_append]; omega
            by_cases hfull2 : (h.objs ++ c0.objs).length = h.count
            · rw [if_pos hfull2]
              apply ih
              · simp only [List.length_append, List.length_singleton, herase]; omega
              · exact hp2
              · exact hmem2
              · intro x hx; cases hx
            · rw [if_neg hfull2]
              apply ih
              · simp only [List.length_append, List.length_singleton, herase]; omega
              · exact hp2
              · exact hmem2
              · intro x hx
                injection hx with hx
                simp only [← hx, List.length_append, List.length_singleton]
                omega
          · rw [if_neg hcnt]
            have hmem2 : ∀ c ∈ acc.set ci { c0 with objs := c0.objs ++ h.objs },
                c.objs.length ≤ c.count := by
              intro c hca
              rcases List.mem_or_eq_of_mem_set hca with hca | hca
              · exact ha c hca
              · subst hca; simp only [List.length_append]; omega
            by_cases hfull2 : (c0.objs ++ h.objs).length = c0.count
            · rw [if_pos hfull2]
              apply ih
              · simp only [List.length_set]; omega
              · exact hp2
              · exact hmem2
              · intro x hx; cases hx
            · rw [if_neg hfull2]
              apply ih
              · simp only [List.length_set]; omega
              · exact hp2
              · exact hmem2
              · intro x hx
                injection hx with hx
                simp only [← hx, List.length_set]
                exact hci
        · rw [if_neg hlt]
          by_cases hswap : h.count - h.objs.length < c0.count - c0.objs.length
          · rw [if_pos hswap]
            apply ih
            · simp only [List.length_append, List.length_singleton, List.length_set]
              omega
            · exact hp2
            · intro c hca
              rcases List.mem_append.mp hca with hca | hca
              · rcases List.mem_or_eq_of_mem_set hca with hca | hca
                · exact ha c hca
                · subst hca; simp only [List.length_take]; omega
              · rw [List.mem_singleton] at hca; subst hca
                simp only [List.length_append, List.length_drop]; omega
            · intro x hx
              injection hx with hx
              simp only [← hx, List.length_append, List.length_singleton,
                List.length_set]
              omega
          · rw [if_neg hswap]
            apply ih
            · simp only [List.length_append, List.length_singleton, List.length_set]
              omega
            · exact hp2
            · intro c hca
              rcases List.mem_append.mp hca with hca | hca
              · rcases List.mem_or_eq_of_mem_set hca with hca | hca
                · exact ha c hca
                · subst hca
                  simp only [List.length_append, List.length_drop]; omega
              · rw [List.mem_singleton] at hca; subst hca
                simp only [List.length_take]; omega
            · intro x hx
              injection hx with hx
              simp only [← hx, List.length_append, List.length_singleton,
                List.length_set]
              omega

/-- Scan pushes preserve the amended claim C4 invariant. -/
theorem sizeInv_push (l : MatchList) (o : MatchObject) (h : SizeInv l) :
    SizeInv (scanPush l o) := by
  obtain ⟨hs, hm⟩ := h
  unfold scanPush
  cases hl : l.chunks.getLast? with
  | none =>
    refine ⟨?_, ?_⟩
    · simp [hs]
    · intro c hc
      rcases List.mem_append.mp hc with hc | hc
      · exact hm c hc
      · rw [List.mem_singleton] at hc; subst hc
        simp [MATCH_CHUNK_SIZE_HUGE]
  | some cl =>
    have hne : l.chunks ≠ [] := by
      intro hnil; rw [hnil] at hl; simp at hl
    have hpos : 0 < l.chunks.length := List.length_pos.mpr hne
    dsimp only
    by_cases hfree : cl.objs.length < cl.count
    · rw [if_pos hfree]
      refine ⟨?_, ?_⟩
      · simp only [List.length_append, List.length_singleton, List.length_dropLast]
        omega
      · intro c hc
        rcases List.mem_append.mp hc with hc | hc
        · exact hm c (List.mem_of_mem_dropLast hc)
        · rw [List.mem_singleton] at hc; subst hc
          simp only [List.length_append, List.length_singleton]
          omega
    · rw [if_neg hfree]
      refine ⟨?_, ?_⟩
      · simp [hs]
      · intro c hc
        rcases List.mem_append.mp hc with hc | hc
        · exact hm c hc
        · rw [List.mem_singleton] at hc; subst hc
          simp [MATCH_CHUNK_SIZE_HUGE]

/-- Swap-with-last deletion never grows a chunk. -/
theorem deleteChunkObject_length_le (objs : List MatchObject) (slot : Nat) :
    (deleteChunkObject objs slot).length ≤ objs.length := by
  unfold deleteChunkObject
  split
  · exact Nat.le_refl _
  · dsimp only
    split <;> simp [List.length_take, List.length_set] <;> omega

/-- Narrow deletions preserve the amended claim C4 invariant. -/
theorem sizeInv_deleteAt (l : MatchList) (ci slot : Nat) (h : SizeInv l) :
    SizeInv (listDeleteAt l ci slot) := by
  obtain ⟨hs, hm⟩ := h
  unfold listDeleteAt
  refine ⟨by simp [hs], ?_⟩
  intro c hc
  rcases List.mem_or_eq_of_mem_set hc with hc | hc
  · exact hm c hc
  · subst hc
    dsimp only
    by_cases hci : ci < l.chunks.length
    · have hmem := getD_mem_of_lt l.chunks ci hci
      have hub := hm _ hmem
      calc (deleteChunkObject (l.chunks.getD ci default).objs slot).length
          ≤ (l.chunks.getD ci default).objs.length :=
            deleteChunkObject_length_le _ _
        _ ≤ (l.chunks.getD ci default).count := hub
    · have hd : l.chunks.getD ci default = default := by
        rw [List.getD_eq_getElem?_getD]
        rw [List.getElem?_eq_none (by omega)]
        rfl
      rw [hd]
      have hdc : (default : Chunk) = ⟨0, []⟩ := rfl
      rw [hdc]
      simp [deleteChunkObject]

/-- Splitting a chunk list by emptiness preserves the total length. -/
theorem filter_split_length (cs : List Chunk) :
    (cs.filter fun c => c.objs.length ≠ 0).length +
      (cs.filter fun c => c.objs.length = 0).length = cs.length := by
  induction cs with
  | nil => rfl
  | cons c t ih =>
    simp only [List.filter_cons]
    by_cases hc : c.objs.length = 0
    · rw [if_neg (by simp [hc]), if_pos (by simp [hc])]
      simp only [List.length_cons]; omega
    · rw [if_pos (by simp [hc]), if_neg (by simp [hc])]
      simp only [List.length_cons]; omega

/-- Unlinking emptied chunks preserves the amended claim C4
invariant. -/
theorem sizeInv_dropEmpty (l : MatchList) (h : SizeInv l) :
    SizeInv (listDropEmpty l) := by
  obtain ⟨hs, hm⟩ := h
  unfold listDropEmpty
  refine ⟨?_, ?_⟩
  · have := filter_split_length l.chunks
    dsimp only
    omega
  · intro c hc
    exact hm c (List.mem_of_mem_filter hc)

/-- Compaction preserves the amended claim C4 invariant. -/
theorem sizeInv_compact (l : MatchList) (h : SizeInv l) :
    SizeInv (listCompact l) := by
  obtain ⟨hs, hm⟩ := h
  unfold listCompact
  have hgo := compactGo_ok l.chunks [] none l.size (by simpa using hs) hm
    (by intro c hc; cases hc) (by intro ci hci; cases hci)
  exact ⟨hgo.1, hgo.2⟩

/-- Any operation sequence preserves the amended claim C4 invariant. -/
theorem sizeInv_applyOps (ops : List StoreOp) :
    ∀ l : MatchList, SizeInv l → SizeInv (applyOps l ops) := by
  induction ops with
  | nil => intro l h; exact h
  | cons op rest ih =>
    intro l h
    have h2 : SizeInv (applyOp l op) := by
      cases op with
      | push o => exact sizeInv_push l o h
      | deleteAt ci slot => exact sizeInv_deleteAt l ci slot h
      | dropEmpty => exact sizeInv_dropEmpty l h
      | compact => exact sizeInv_compact l h
    exact ih (applyOp l op) h2

/-- Appending one region extends an id run by the next id. -/
theorem idsFrom_append (rs : List Region) :
    ∀ (k : Nat) (x : Region),
    idsFrom k (rs ++ [x]) = (idsFrom k rs && (x.id == k + rs.length)) := by
  induction rs with
  | nil => intro k x; simp [idsFrom]
  | cons r t ih =>
    intro k x
    rw [List.cons_append]
    show ((r.id == k) && idsFrom (k + 1) (t ++ [x])) =
      (((r.id == k) && idsFrom (k + 1) t) && (x.id == k + (r :: t).length))
    rw [ih, List.length_cons, Bool.and_assoc]
    have h3 : k + 1 + t.length = k + (t.length + 1) := by omega
    rw [h3]

/-- The maps-parsing loop keeps region ids contiguous from 1. -/
theorem processGo_ids (lines : List (List Char)) :
    ∀ (m : Mapping) (rl : RegionList),
    idsFrom 1 rl.regions = true →
    rl.nextId = rl.regions.length + 1 →
    idsFrom 1 (processPidMapsGo lines m rl).2.regions = true := by
  induction lines with
  | nil => intro m rl h1 _; exact h1
  | cons line rest ih =>
    intro m rl h1 h2
    unfold processPidMapsGo
    dsimp only
    split
    · rfl
    · split
      · exact ih _ _ h1 h2
      · apply ih
        · unfold regionListAdd
          dsimp only
          rw [idsFrom_append, h1, Bool.true_and, h2]
          simp [Nat.add_comm]
        · unfold regionListAdd
          dsimp only
          simp only [List.length_append, List.length_singleton]
          omega

/-- A narrow pass on an empty match list is the identity with no
effects. -/
theorem matchRun_empty (mem : Nat → Option (List Nat)) (canRead openOk : Bool)
    (l : MatchList) (n1 n2 : MatchObject) (pred : MatchPred)
    (h : l.chunks = []) :
    matchRun mem canRead openOk l n1 n2 pred =
      { ret := 0, list := l, reads := [], opened := false } := by
  simp [matchRun, h]

/-! Claim theorems. -/

/-- Claim C1: the spec says `match_needle_init` succeeds on every valid
numeric literal (in particular on `"3.14"` and `"0x7fffffff"`).  The
code compares the end pointer itself against the null pointer (the
character constant zero) instead of dereferencing it, so both success
branches are unreachable: `match_needle_init` returns `-1` on EVERY
input, whatever `strtod` does. -/
theorem c1_match_needle_init_never_succeeds
    (fd : String → CStrResult) (s : String) : (matchNeedleInit fd s).1 = -1 := by
  simp only [matchNeedleInit, Option.some_ne_none, if_false, reduceIte]
  split <;> [rfl; skip]
  split <;> rfl

/-- Claim C1 witness: the general failure theorem applied at the
claim's own example inputs. -/
theorem c1_match_needle_init_never_succeeds_witness :
    (matchNeedleInit (fun _ => default) "3.14").1 = -1 ∧
    (matchNeedleInit (fun _ => default) "0x7fffffff").1 = -1 :=
  ⟨c1_match_needle_init_never_succeeds (fun _ => default) "3.14",
   c1_match_needle_init_never_succeeds (fun _ => default) "0x7fffffff"⟩

/-- Claim C2: the spec says the integer width flags follow the full
signed interpretation, so `"-1"` should set `i8, i16, i32, i64` and
`"-129"` should set `i16, i32, i64`.  In the code the sign is taken
from the LOW BYTE of the parsed unsigned value and the width guards
compare that unsigned value (`2 ^ 64 - 1` for `"-1"`) against the
unsigned maxima, so both negative literals set only `i64`; the
positive literal `"256"` does come out as the claim says. -/
theorem c2_match_flags_set_integer_negative_eval :
    matchFlagsSetInteger "-1" {} = some { i64 := true } ∧
    matchFlagsSetInteger "-129" {} = some { i64 := true } ∧
    matchFlagsSetInteger "256" {} = some { i16 := true, i32 := true, i64 := true } := by
  decide

/-- Claim C3: the spec's flag rule wants `i8` (resp. `i16`, `i32`) set
for a negative full-width value down to the width's signed minimum; on
the all-ones window (value `-1` as `i64`, read with `n = 8`) it
demands `i8 = i16 = i32 = 1`.  In `get_match_object` the guards
compare the unsigned 64-bit view against `UINT8/16/32_MAX`, so the
negative branches are dead and the code clears all three flags. -/
theorem c3_get_match_object_negative_window_eval :
    getMatchObject (some [255, 255, 255, 255, 255, 255, 255, 255]) 0 =
      some { v := 2 ^ 64 - 1, flags := { i64 := true, f32 := true, f64 := true },
             addr := 0 } := by
  decide

/-- Claim C4 counterexample: after two scan pushes into an empty store
the `size` field is 1 (one chunk) while the summed `used` counters are
2, so `size` does not equal the number of entries. -/
theorem c4_size_counterexample :
    (applyOps ⟨[], 0⟩ [.push default, .push default]).size = 1 ∧
    ((applyOps ⟨[], 0⟩ [.push default, .push default]).chunks.map Chunk.used).sum = 2 ∧
    (applyOps ⟨[], 0⟩ [.push default, .push default]).size ≠
      ((applyOps ⟨[], 0⟩ [.push default, .push default]).chunks.map Chunk.used).sum := by
  decide

/-- Claim C4 amended: for every sequence of store operations from the
empty list, `size` equals the NUMBER OF CHUNKS (it is maintained only
by `match_list_add` and `match_list_delete_entry`, one per chunk), and
every chunk satisfies `used ≤ capacity`. -/
theorem c4_amended_size_counts_chunks (ops : List StoreOp) :
    sizeInvB (applyOps ⟨[], 0⟩ ops) = true := by
  have h := sizeInv_applyOps ops ⟨[], 0⟩ ⟨rfl, by intro c hc; cases hc⟩
  obtain ⟨h1, h2⟩ := h
  simp [sizeInvB, List.all_eq_true, h1]
  exact h2

/-- Claim C5 counterexample: the scan-side `__search_eq` accepts the
window `0x10100` for the needle 256 (flags `i16, i32, i64`) because the
low 16 bits agree, while comparison at the single largest advertised
width (`u64`) rejects it. -/
theorem c5_search_eq_counterexample :
    searchEqPred c5value c5needle = true ∧
    searchEqLargestWidthSpec c5needle c5value = false := by
  decide

/-- Claim C5 amended: a window is accepted by the scan `eq` predicate
exactly when it equals the needle at SOME advertised width — `u8` for
`i8`, `u16` for `i16`, `u32` for `i32` or `f32`, `u64` for `i64` or
`f64` — checked narrowest first (the narrow-engine `__match_eq`, not
the scan, compares at the largest width only). -/
theorem c5_amended_search_eq_any_width (value n : MatchObject) :
    searchEqPred value n = searchEqAnyWidthSpec n value := by
  unfold searchEqPred searchEqAnyWidthSpec
  simp only [iteTrueOr, Bool.or_false, Bool.or_assoc]

/-- Claim C6 counterexample: with the needle `u64 = 2 ^ 63` (negative
as `i64`) as both bounds and a stored candidate whose re-read value is
1, `match_range(GT_LT)` RETAINS the candidate — the needle is greater
unsigned and smaller signed — although the claim says equal `GT_LT`
bounds retain nothing.  The run returns 0, reads one address, and
leaves the one-entry list unchanged. -/
theorem c6_range_counterexample :
    matchRangeOp c6mem true true c6list c6needle c6needle .GT_LT =
      { ret := 0, list := c6list, reads := [4096], opened := true } ∧
    c6list.chunks.map Chunk.used = [1] := by
  decide

/-- Claim C6 amended: with equal needles `v` as both bounds, the
`GT_LT` predicate keeps a candidate exactly when `v` dispatches at an
integer width and the re-read value's sign bit at that width differs
from `v`'s (float dispatch keeps nothing), and the `GE_LE` predicate
keeps a candidate exactly when the re-read value equals `v` at the
dispatch width — unsigned equality at integer widths (plus the
sign-differing case), IEEE equality at float widths — which differs
from `__match_eq`'s raw `u64`/`u32` comparison. -/
theorem c6_amended_equal_bounds (orig new v : MatchObject) :
    matchGtLtPred orig new v v = gtltEqualBoundsSpec v new ∧
    matchGeLePred orig new v v = geleEqualBoundsSpec v new := by
  constructor
  · show (if (!matchGtPred orig new v default) = true then false
          else matchLtPred orig new v default) = gtltEqualBoundsSpec v new
    rw [iteNotAnd]
    unfold matchGtPred matchLtPred gtltEqualBoundsSpec
    cases h64 : v.flags.i64 <;> cases hf64 : v.flags.f64 <;>
      cases h32 : v.flags.i32 <;> cases hf32 : v.flags.f32 <;>
      cases h16 : v.flags.i16 <;> cases h8 : v.flags.i8 <;>
      simp [h64, hf64, h32, hf32, h16, h8, gtltW64, gtltW32, gtltW16, gtltW8,
        f64GtLtFalse, f32GtLtFalse]
  · show (if (!matchGePred orig new v default) = true then false
          else matchLePred orig new v default) = geleEqualBoundsSpec v new
    rw [iteNotAnd]
    unfold matchGePred matchLePred geleEqualBoundsSpec
    cases h64 : v.flags.i64 <;> cases hf64 : v.flags.f64 <;>
      cases h32 : v.flags.i32 <;> cases hf32 : v.flags.f32 <;>
      cases h16 : v.flags.i16 <;> cases h8 : v.flags.i8 <;>
      simp [h64, hf64, h32, hf32, h16, h8, geleW64, geleW32, geleW16, geleW8,
        f64GeLeEq, f32GeLeEq]

/-- Claim C7: the spec says a non-empty maps line yielding fewer than
ten fields aborts the parse with an error and discards the region set.
In the code `parse_line` returns the POSITIVE field count for 1..9
recovered fields while `process_pid_maps` only treats negative returns
as errors, so a five-field line (`mapsLine2`) is silently skipped: the
parse of a well-formed line followed by the malformed one SUCCEEDS
(returns 0) and keeps the region from the good line. -/
theorem c7_malformed_line_not_fatal_eval :
    (scanMapsLine mapsLine2 default).1 = 5 ∧
    parseLine mapsLine2 default = ((5 : Int), (parseLine mapsLine2 default).2) ∧
    (processPidMaps [mapsLine1, mapsLine2] default).1 = 0 ∧
    (processPidMaps [mapsLine1, mapsLine2] default).2.regions.length = 1 := by
  decide

/-- Claim C8 counterexample: `process_pid_maps` performs no validation
of the parsed addresses, so the line `2-1 rw-p 0 0:0 0 x` produces a
successful parse whose single region has `start = 2 > 1 = end` and a
start that is not page-aligned. -/
theorem c8_region_counterexample :
    (processPidMaps [mapsLineBad] default).1 = 0 ∧
    (processPidMaps [mapsLineBad] default).2.regions.length = 1 ∧
    ((processPidMaps [mapsLineBad] default).2.regions.all fun r =>
      decide (r.start < r.endAddr) && decide (r.start % pageSize = 0) &&
        decide (r.endAddr % pageSize = 0)) = false := by
  decide

/-- Claim C8 amended: region ids are 1-based and contiguous in parse
order for every input; `start` and `end` are copied verbatim from the
parsed line, so `start < end` and page alignment hold only when the
input lines satisfy them (the parser never checks). -/
theorem c8_amended_ids_contiguous (lines : List (List Char)) (garbage : Mapping) :
    idsFrom 1 (processPidMaps lines garbage).2.regions = true :=
  processGo_ids lines garbage {} rfl rfl

/-- Claim C9: `__match_decreased` and `__match_increased` select
widths from the STORED entry's flags only (the needle arguments are
ignored — they are universally quantified here and absent from the
right-hand sides), walk from the narrowest width up, and keep the
entry as soon as ANY flagged width shows a decrease (resp. increase)
under the unsigned or signed view, or the float view for `f32`/`f64`. -/
theorem c9_decreased_increased_any_stored_width
    (orig new n1 n2 : MatchObject) :
    matchDecreasedPred orig new n1 n2 = decreasedAnyWidthSpec orig new ∧
    matchIncreasedPred orig new n1 n2 = increasedAnyWidthSpec orig new := by
  constructor
  · unfold matchDecreasedPred decreasedAnyWidthSpec
    simp only [iteTrueOr, Bool.or_false, Bool.or_assoc]
  · unfold matchIncreasedPred increasedAnyWidthSpec
    simp only [iteTrueOr, Bool.or_false, Bool.or_assoc]

/-- Claim C10: every narrow operation applied to an empty match list
returns 0 immediately, reads no target memory, opens no reader handle,
and leaves the list untouched (the `match_list_is_empty` test precedes
reader selection in `__match`, and `match_range` with a valid bound
flag merely dispatches to `__match`). -/
theorem c10_empty_list_frame (mem : Nat → Option (List Nat))
    (canRead openOk : Bool) (l : MatchList) (h : l.chunks = []) :
    (∀ needle,
      matchEqOp mem canRead openOk l needle =
        { ret := 0, list := l, reads := [], opened := false } ∧
      matchNeOp mem canRead openOk l needle =
        { ret := 0, list := l, reads := [], opened := false } ∧
      matchLtOp mem canRead openOk l needle =
        { ret := 0, list := l, reads := [], opened := false } ∧
      matchLeOp mem canRead openOk l needle =
        { ret := 0, list := l, reads := [], opened := false } ∧
      matchGtOp mem canRead openOk l needle =
        { ret := 0, list := l, reads := [], opened := false } ∧
      matchGeOp mem canRead openOk l needle =
        { ret := 0, list := l, reads := [], opened := false }) ∧
    matchChangedOp mem canRead openOk l =
      { ret := 0, list := l, reads := [], opened := false } ∧
    matchUnchangedOp mem canRead openOk l =
      { ret := 0, list := l, reads := [], opened := false } ∧
    matchDecreasedOp mem canRead openOk l =
      { ret := 0, list := l, reads := [], opened := false } ∧
    matchIncreasedOp mem canRead openOk l =
      { ret := 0, list := l, reads := [], opened := false } ∧
    (∀ (lower upper : MatchObject) (flags : MatchRangeBoundFlags),
      matchRangeOp mem canRead openOk l lower upper flags =
        { ret := 0, list := l, reads := [], opened := false }) := by
  refine ⟨fun needle => ⟨?_, ?_, ?_, ?_, ?_, ?_⟩, ?_, ?_, ?_, ?_,
    fun lower upper flags => ?_⟩ <;>
    first
    | exact matchRun_empty mem canRead openOk l _ _ _ h
    | (cases flags <;> exact matchRun_empty mem canRead openOk l _ _ _ h)

/-- Claim C10 witness: the frame theorem applied to a concrete empty
list, a reader that would fail every read, and the `eq` and `GT_LT`
operations. -/
theorem c10_empty_list_frame_witness :
    (⟨[], 0⟩ : MatchList).chunks = [] ∧
    matchEqOp (fun _ => none) true true ⟨[], 0⟩ default =
      { ret := 0, list := ⟨[], 0⟩, reads := [], opened := false } ∧
    matchRangeOp (fun _ => none) true true ⟨[], 0⟩ default default .GT_LT =
      { ret := 0, list := ⟨[], 0⟩, reads := [], opened := false } :=
  ⟨rfl,
   ((c10_empty_list_frame (fun _ => none) true true ⟨[], 0⟩ rfl).1 default).1,
   (c10_empty_list_frame (fun _ => none) true true
     ⟨[], 0⟩ rfl).2.2.2.2.2 default default .GT_LT⟩

end Scnm
